import Mathlib

set_option autoImplicit false

/-
Verification development for the property-manager repository.

The payment-record core is embedded shallowly:
  - months are the strings produced and consumed by the Go layouts
    "2006-01" and "2006-01-02" (time.Parse / time.Format); both layouts
    are fixed-width, so parsing is exact digit matching with range checks;
  - float64 monetary amounts are modelled as rationals: none of the
    verified properties depends on binary rounding;
  - the SQLite store is modelled as explicit state (lists of rows plus
    the AUTOINCREMENT counter); a transaction is a candidate state that
    is discarded on rollback;
  - time.Now() is passed in as an explicit timestamp / current-month
    parameter.
-/

namespace PropertyManager

/-! ### Month and date strings (Go layouts "2006-01" and "2006-01-02") -/

/-- Numeric value of a decimal digit character. -/
def digitVal (c : Char) : Nat := c.toNat - 48

/-- The decimal digit character for a value below ten. -/
def digitChar : Nat → Char
  | 0 => '0'
  | 1 => '1'
  | 2 => '2'
  | 3 => '3'
  | 4 => '4'
  | 5 => '5'
  | 6 => '6'
  | 7 => '7'
  | 8 => '8'
  | _ => '9'

/-- Embeds Go `time.Parse("2006-01", s)`: the layout is fixed width, so the
string must be exactly four digits, a dash, and two digits, with the month
in 1..12.  Returns the (year, month) pair. -/
def parseYearMonth (s : String) : Option (Nat × Nat) :=
  match s.data with
  | [y1, y2, y3, y4, sep, m1, m2] =>
      if sep = '-' ∧ y1.isDigit ∧ y2.isDigit ∧ y3.isDigit ∧ y4.isDigit
          ∧ m1.isDigit ∧ m2.isDigit then
        if 1 ≤ digitVal m1 * 10 + digitVal m2 ∧ digitVal m1 * 10 + digitVal m2 ≤ 12 then
          some (digitVal y1 * 1000 + digitVal y2 * 100 + digitVal y3 * 10 + digitVal y4,
            digitVal m1 * 10 + digitVal m2)
        else none
      else none
  | _ => none

/-- Number of months from year 0 month 1 up to the given year-month: the
total order in which `time.Before` compares two first-of-month dates. -/
def monthIndex (y m : Nat) : Nat := y * 12 + (m - 1)

/-- Embeds Go `Format("2006-01")` on a first-of-month date, for the years
0..9999 that the fixed-width parser can produce: zero-padded four-digit
year, dash, zero-padded two-digit month. -/
def formatYearMonth (idx : Nat) : String :=
  ⟨[digitChar (idx / 12 / 1000 % 10), digitChar (idx / 12 / 100 % 10),
    digitChar (idx / 12 / 10 % 10), digitChar (idx / 12 % 10), '-',
    digitChar ((idx % 12 + 1) / 10 % 10), digitChar ((idx % 12 + 1) % 10)]⟩

/-- The loop of `GetMonthsRange`: formatted months for every index from
`a` to `b` inclusive, ascending. -/
def monthsFrom (a b : Nat) : List String :=
  if h : b < a then [] else formatYearMonth a :: monthsFrom (a + 1) b
termination_by b + 1 - a

/-- Embeds `GetMonthsRange`: parse both bounds with the "2006-01" layout,
reject a backwards range, and otherwise list every month from start to end
inclusive. -/
def GetMonthsRange (startMonth endMonth : String) : Except String (List String) :=
  match parseYearMonth startMonth with
  | none => .error "invalid start month format"
  | some p =>
    match parseYearMonth endMonth with
    | none => .error "invalid end month format"
    | some q =>
      if monthIndex q.1 q.2 < monthIndex p.1 p.2 then
        .error "end month cannot be before start month"
      else
        .ok (monthsFrom (monthIndex p.1 p.2) (monthIndex q.1 q.2))

/-! ### Amount parsing (utils.ParseAmount over strconv.ParseFloat) -/

/-- Embeds Go unicode.IsSpace: the Unicode White_Space property. -/
def goIsSpace (c : Char) : Bool :=
  decide ((9 ≤ c.toNat ∧ c.toNat ≤ 13) ∨ c.toNat = 32 ∨ c.toNat = 133 ∨ c.toNat = 160 ∨
    c.toNat = 5760 ∨ (8192 ≤ c.toNat ∧ c.toNat ≤ 8202) ∨ c.toNat = 8232 ∨ c.toNat = 8233 ∨
    c.toNat = 8239 ∨ c.toNat = 8287 ∨ c.toNat = 12288)

/-- Embeds Go strings.TrimSpace. -/
def trimSpace (s : String) : String :=
  ⟨((s.data.dropWhile goIsSpace).reverse.dropWhile goIsSpace).reverse⟩

/-- Embeds strings.Replace(s, ",", ".", -1): every comma becomes a dot. -/
def commaToDot (s : String) : String :=
  ⟨s.data.map (fun c => if c = ',' then '.' else c)⟩

/-- The value classes strconv.ParseFloat can return for 64-bit floats: a
finite value (carried as an exact rational), the two infinities, or
NaN. -/
inductive GoFloat where
  | finite (q : ℚ)
  | posInf
  | negInf
  | nan
deriving DecidableEq

/-- Smallest magnitude that float64 rounding sends to the infinities: half
an ulp beyond the largest finite float64 (the tie rounds to even, that is
away from the largest finite value), the bound at which strconv.ParseFloat
reports ErrRange. -/
def floatOverflowThreshold : ℚ := 2 ^ 1024 - 2 ^ 970

/-- Largest magnitude that float64 rounding sends to the zeros: half the
smallest subnormal (the tie rounds to even, that is to zero).  Underflow
carries no error in strconv.ParseFloat (its decimal conversion raises the
overflow flag only on the overflow path). -/
def floatZeroThreshold : ℚ := 1 / 2 ^ 1075

/-- Float64 rounding reduced to what utils.ParseAmount can observe: a
finite nonzero in-range value keeps its exact rational (the rounded float
has the same sign and is nonzero); magnitudes at or beyond the overflow
threshold give the signed infinity together with the range-error flag, as
strconv.ParseFloat does; magnitudes at or below the zero threshold round
to a (signed) zero with no error. -/
def classifyFloat : GoFloat → GoFloat × Bool
  | .posInf => (.posInf, false)
  | .negInf => (.negInf, false)
  | .nan => (.nan, false)
  | .finite q =>
    if floatOverflowThreshold ≤ |q| then
      (if q < 0 then GoFloat.negInf else GoFloat.posInf, true)
    else if |q| ≤ floatZeroThreshold then (.finite 0, false)
    else (.finite q, false)

/-- The special values of strconv.ParseFloat: the optionally signed inf
and infinity forms and the unsigned nan form, case-insensitively, as whole
strings (a longer string with such a prefix is a syntax error, exactly as
in the whole-string use of parseFloatPrefix). -/
def parseSpecial (cs : List Char) : Option GoFloat :=
  match cs.map Char.toLower with
  | ['i', 'n', 'f'] => some .posInf
  | ['i', 'n', 'f', 'i', 'n', 'i', 't', 'y'] => some .posInf
  | ['+', 'i', 'n', 'f'] => some .posInf
  | ['+', 'i', 'n', 'f', 'i', 'n', 'i', 't', 'y'] => some .posInf
  | ['-', 'i', 'n', 'f'] => some .negInf
  | ['-', 'i', 'n', 'f', 'i', 'n', 'i', 't', 'y'] => some .negInf
  | ['n', 'a', 'n'] => some .nan
  | _ => none

def isHexDigitChar (c : Char) : Bool :=
  c.isDigit || decide (97 ≤ c.toLower.toNat ∧ c.toLower.toNat ≤ 102)

def hexDigitVal (c : Char) : Nat :=
  if c.isDigit then digitVal c else c.toLower.toNat - 87

/-- The mantissa loop of Go readFloat: digits of the base with at most one
dot, underscores skipped but remembered.  Returns the digits value, the
count of fractional digits, whether any digit and whether any underscore
was seen, and the rest of the input (scanning stops at a second dot or any
other character, which the caller then rejects as trailing input). -/
def scanMantissa (hex : Bool) :
    List Char → Nat → Nat → Bool → Bool → Bool → Nat × Nat × Bool × Bool × List Char
  | [], mant, frac, _, sawdig, sawus => (mant, frac, sawdig, sawus, [])
  | c :: rest, mant, frac, sawdot, sawdig, sawus =>
    if c = '_' then scanMantissa hex rest mant frac sawdot sawdig true
    else if c = '.' then
      (if sawdot then (mant, frac, sawdig, sawus, c :: rest)
       else scanMantissa hex rest mant frac true sawdig sawus)
    else if (if hex then isHexDigitChar c else c.isDigit) then
      scanMantissa hex rest
        (mant * (if hex then 16 else 10) + (if hex then hexDigitVal c else digitVal c))
        (if sawdot then frac + 1 else frac) sawdot true sawus
    else (mant, frac, sawdig, sawus, c :: rest)

/-- The exponent-digit loop of Go readFloat, including its cap on the
accumulated exponent value. -/
def scanExponentDigits : List Char → Nat → Bool → Nat × Bool × List Char
  | [], e, sawus => (e, sawus, [])
  | c :: rest, e, sawus =>
    if c = '_' then scanExponentDigits rest e true
    else if c.isDigit then
      scanExponentDigits rest (if e < 10000 then e * 10 + digitVal c else e) sawus
    else (e, sawus, c :: rest)

/-- The exponent part of Go readFloat: for hex input the p exponent is
mandatory, for decimal input the e exponent is optional; after the
optional sign the first character must be a digit.  Returns the signed
exponent, whether an underscore was seen, and the rest. -/
def parseExponentPart (hex : Bool) (cs : List Char) : Option (Int × Bool × List Char) :=
  match cs with
  | [] => if hex then none else some (0, false, [])
  | c :: rest =>
    if (if hex then c.toLower = 'p' else c.toLower = 'e') then
      match (match rest with
             | '-' :: r2 => (true, r2)
             | '+' :: r2 => (false, r2)
             | _ => (false, rest)) with
      | (eneg, r3) =>
        match r3 with
        | [] => none
        | d :: _ =>
          if d.isDigit then
            match scanExponentDigits r3 0 false with
            | (e, sawus, r4) =>
              some (if eneg then -(e : Int) else (e : Int), sawus, r4)
          else none
    else if hex then none
    else some (0, false, c :: rest)

/-- Go strconv underscoreOK, the placement rule for digit-separator
underscores: each must sit between digits; a base prefix counts as a
digit. -/
def underscoreOKLoop (hex : Bool) : List Char → Char → Bool
  | [], saw => decide (saw ≠ '_')
  | c :: rest, saw =>
    if c.isDigit ∨ (hex ∧ 97 ≤ c.toLower.toNat ∧ c.toLower.toNat ≤ 102) then
      underscoreOKLoop hex rest '0'
    else if c = '_' then
      (if saw = '0' then underscoreOKLoop hex rest '_' else false)
    else if saw = '_' then false
    else underscoreOKLoop hex rest '!'

def underscoreOK (cs0 : List Char) : Bool :=
  match (match cs0 with
         | '-' :: rest => rest
         | '+' :: rest => rest
         | _ => cs0) with
  | '0' :: b :: rest =>
    if b.toLower = 'x' ∨ b.toLower = 'b' ∨ b.toLower = 'o' then
      underscoreOKLoop (decide (b.toLower = 'x')) rest '0'
    else underscoreOKLoop false ('0' :: b :: rest) '^'
  | cs1 => underscoreOKLoop false cs1 '^'

/-- Ten to a signed power, as an exact rational. -/
def pow10 (e : Int) : ℚ :=
  if 0 ≤ e then (10 : ℚ) ^ e.toNat else 1 / (10 : ℚ) ^ (-e).toNat

/-- Two to a signed power, as an exact rational. -/
def pow2 (e : Int) : ℚ :=
  if 0 ≤ e then (2 : ℚ) ^ e.toNat else 1 / (2 : ℚ) ^ (-e).toNat

/-- Exact value denoted by a decimal mantissa, fraction length and decimal
exponent. -/
def decValue (neg : Bool) (mant frac : Nat) (ex : Int) : ℚ :=
  (if neg then (-1 : ℚ) else 1) * (mant : ℚ) / (10 : ℚ) ^ frac * pow10 ex

/-- Exact value denoted by a hexadecimal mantissa, fraction length and
binary exponent. -/
def hexValue (neg : Bool) (mant frac : Nat) (ex : Int) : ℚ :=
  (if neg then (-1 : ℚ) else 1) * (mant : ℚ) / (16 : ℚ) ^ frac * pow2 ex

/-- Embeds the number form of Go strconv readFloat used on a whole string:
optional sign, decimal or 0x-prefixed hexadecimal mantissa (the prefix
needs at least one following character, as in the source) with at most one
dot and digit-separator underscores, a mandatory p exponent for hex and an
optional e exponent for decimal, no trailing characters, and the
underscore placement check.  The result is the exact rational the digits
denote. -/
def parseNumber (cs0 : List Char) : Option ℚ :=
  match (match cs0 with
         | '-' :: rest => (true, rest)
         | '+' :: rest => (false, rest)
         | _ => (false, cs0)) with
  | (neg, cs1) =>
    match (match cs1 with
           | '0' :: x :: c :: rest =>
             if x.toLower = 'x' then (true, c :: rest) else (false, cs1)
           | _ => (false, cs1)) with
    | (hex, cs2) =>
      match scanMantissa hex cs2 0 0 false false false with
      | (mant, frac, sawdig, sawus1, cs3) =>
        if sawdig = false then none
        else
          match parseExponentPart hex cs3 with
          | none => none
          | some (ex, sawus2, cs4) =>
            if cs4 ≠ [] then none
            else if (sawus1 || sawus2) = true ∧ underscoreOK cs0 = false then none
            else some (if hex then hexValue neg mant frac ex else decValue neg mant frac ex)

/-- Embeds strconv.ParseFloat(s, 64) up to what utils.ParseAmount
observes: none is a syntax error; otherwise the value class together with
whether the range error accompanies it.  Finite in-range values are
carried as exact rationals instead of their float64 roundings; rounding is
applied exactly where it changes the observable class (to the signed
infinity with the range error at overflow, to zero at underflow). -/
def parseFloat (s : String) : Option (GoFloat × Bool) :=
  match parseSpecial s.data with
  | some v => some (classifyFloat v)
  | none =>
    match parseNumber s.data with
    | none => none
    | some q => some (classifyFloat (.finite q))

/-- The sign test amount < 0 of ParseAmount applied to a ParseFloat
result: NaN and the positive infinity are not negative. -/
def isNegValue : GoFloat → Bool
  | .finite q => decide (q < 0)
  | .posInf => false
  | .negInf => true
  | .nan => false

/-- Embeds utils.ParseAmount: the empty string is allowed and yields zero;
otherwise trim whitespace, turn commas into dots, parse with
strconv.ParseFloat, propagate its syntax and range errors, and reject
negative results (NaN and the positive infinity are not negative and pass
through, exactly as in the Go code).  The strconv error values are
modelled by their kind only. -/
def ParseAmount (amountStr : String) : Except String GoFloat :=
  if amountStr = "" then .ok (.finite 0)
  else
    match parseFloat (commaToDot (trimSpace amountStr)) with
    | none => .error "invalid amount syntax"
    | some (amount, rangeErr) =>
      if rangeErr then .error "value out of range"
      else if isNegValue amount then .error "amount cannot be negative"
      else .ok amount

/-! ### The PaymentRecord model (models/payment_record.go) -/

structure PaymentRecord where
  id : Int
  tenantId : Int
  month : String
  targetColdRent : ℚ
  paidColdRent : ℚ
  paidAncillary : ℚ
  paidElectricity : ℚ
  extraPayments : ℚ
  persons : Int
  note : String
  isLocked : Bool
  createdAt : Nat
  updatedAt : Nat
deriving DecidableEq

/-- Embeds PaymentRecord.Validate: tenant id positive, month parses with
the "2006-01" layout, persons positive, the four paid amounts
non-negative. -/
def PaymentRecord.Validate (p : PaymentRecord) : Except String Unit :=
  if p.tenantId ≤ 0 then .error "invalid tenant ID"
  else if (parseYearMonth p.month).isNone then .error "invalid month format: must be YYYY-MM"
  else if p.persons ≤ 0 then .error "number of persons must be greater than 0"
  else if p.paidColdRent < 0 ∨ p.paidAncillary < 0 ∨ p.paidElectricity < 0 ∨
      p.extraPayments < 0 then
    .error "payment amounts cannot be negative"
  else .ok ()

/-! ### The store (SQLite tables as explicit state) -/

structure Tenant where
  id : Int
  moveInDate : String
  moveOutDate : Option String
  numberOfPersons : Int
  targetColdRent : ℚ
  houseId : Int
  apartmentId : Int
deriving DecidableEq

/-- The persistent state: the tables (houses and apartments only through
the ids the embedded operations consult) and the AUTOINCREMENT counter of
payment_records. -/
structure DB where
  houseIds : List Int
  apartmentIds : List Int
  tenants : List Tenant
  records : List PaymentRecord
  nextRecordId : Int
deriving DecidableEq

/-- SELECT COUNT(*) FROM tenants WHERE id = ?. -/
def tenantCount (db : DB) (tenantId : Int) : Nat :=
  db.tenants.countP (fun t => decide (t.id = tenantId))

/-- SELECT ... FROM payment_records WHERE tenant_id = ? AND month = ?. -/
def findByTenantMonth (records : List PaymentRecord) (tenantId : Int) (month : String) :
    Option PaymentRecord :=
  records.find? (fun r => decide (r.tenantId = tenantId ∧ r.month = month))

/-- Embeds PaymentRecordRepository.GetByID. -/
def recordGetByID (db : DB) (id : Int) : Except String PaymentRecord :=
  match db.records.find? (fun r => decide (r.id = id)) with
  | none => .error "payment record not found"
  | some r => .ok r

/-- The UPDATE statement shared by the single and the batch path: for the
row with the given id, write paid amounts, persons, note, lock flag and
updated_at from the source record; every other column keeps its value. -/
def applyUpdateRow (src : PaymentRecord) (now : Nat) (id : Int) (row : PaymentRecord) :
    PaymentRecord :=
  if row.id = id then
    { row with
      paidColdRent := src.paidColdRent, paidAncillary := src.paidAncillary,
      paidElectricity := src.paidElectricity, extraPayments := src.extraPayments,
      persons := src.persons, note := src.note, isLocked := src.isLocked, updatedAt := now }
  else row

/-- The lock check of PaymentRecordRepository.Update: when the stored
record is locked and stays locked, the caller-supplied financial fields and
persons are replaced by the stored values; in every other case the
caller-supplied record passes through. -/
def mergeLockedFields (existingRecord record : PaymentRecord) : PaymentRecord :=
  if existingRecord.isLocked ∧ record.isLocked then
    { record with
      paidColdRent := existingRecord.paidColdRent,
      paidAncillary := existingRecord.paidAncillary,
      paidElectricity := existingRecord.paidElectricity,
      extraPayments := existingRecord.extraPayments,
      persons := existingRecord.persons }
  else record

/-- Embeds PaymentRecordRepository.Update.  Returns the post state and, on
success, the record value after the in-place mutations the Go code makes
(financial fields possibly reset from the stored row, UpdatedAt set). -/
def PaymentRecordRepository.Update (db : DB) (now : Nat) (record : PaymentRecord) :
    DB × Except String PaymentRecord :=
  match record.Validate with
  | .error e => (db, .error e)
  | .ok _ =>
    match recordGetByID db record.id with
    | .error e => (db, .error e)
    | .ok existingRecord =>
      ({ db with
          records := db.records.map
            (applyUpdateRow (mergeLockedFields existingRecord record) now record.id) },
        .ok { mergeLockedFields existingRecord record with updatedAt := now })

/-- Embeds PaymentRecordRepository.Delete. -/
def PaymentRecordRepository.Delete (db : DB) (id : Int) : DB × Except String Unit :=
  match recordGetByID db id with
  | .error e => (db, .error e)
  | .ok _ =>
    ({ db with records := db.records.filter (fun r => decide (r.id ≠ id)) }, .ok ())

/-- Embeds PaymentRecordRepository.Create. -/
def PaymentRecordRepository.Create (db : DB) (now : Nat) (record : PaymentRecord) :
    DB × Except String PaymentRecord :=
  match record.Validate with
  | .error e => (db, .error e)
  | .ok _ =>
    if tenantCount db record.tenantId = 0 then (db, .error "tenant not found")
    else if (findByTenantMonth db.records record.tenantId record.month).isSome then
      (db, .error "payment record already exists for this tenant and month")
    else
      ({ db with
          records := db.records ++
            [{ record with id := db.nextRecordId, createdAt := now, updatedAt := now }],
          nextRecordId := db.nextRecordId + 1 },
        .ok { record with id := db.nextRecordId, createdAt := now, updatedAt := now })

/-- One iteration of the BatchCreateOrUpdateRecords loop on the transaction
state: insert when the (tenant, month) pair is absent (after checking the
tenant exists), otherwise run the update statement on the found row id. -/
def batchStep (now : Nat) (txdb : DB) (record : PaymentRecord) :
    Except String (DB × PaymentRecord) :=
  match findByTenantMonth txdb.records record.tenantId record.month with
  | none =>
    if tenantCount txdb record.tenantId = 0 then .error "tenant not found"
    else
      .ok ({ txdb with
          records := txdb.records ++
            [{ record with id := txdb.nextRecordId, createdAt := now, updatedAt := now }],
          nextRecordId := txdb.nextRecordId + 1 },
        { record with id := txdb.nextRecordId, createdAt := now, updatedAt := now })
  | some existing =>
    .ok ({ txdb with records := txdb.records.map (applyUpdateRow record now existing.id) },
      { record with id := existing.id, updatedAt := now })

/-- The loop over all records of the batch. -/
def batchGo (now : Nat) : DB → List PaymentRecord → Except String (DB × List PaymentRecord)
  | txdb, [] => .ok (txdb, [])
  | txdb, r :: rs =>
    match batchStep now txdb r with
    | .error e => .error e
    | .ok (txdb2, r2) =>
      match batchGo now txdb2 rs with
      | .error e => .error e
      | .ok (txdb3, rs2) => .ok (txdb3, r2 :: rs2)

/-- Embeds PaymentRecordRepository.BatchCreateOrUpdateRecords: the loop runs
on the transaction state; any failure rolls the transaction back, so the
pre-call state is returned; success commits the transaction state. -/
def PaymentRecordRepository.BatchCreateOrUpdateRecords (db : DB) (now : Nat)
    (records : List PaymentRecord) : DB × Except String (List PaymentRecord) :=
  match batchGo now db records with
  | .error e => (db, .error e)
  | .ok (txdb, rs) => (txdb, .ok rs)

/-! ### Record generation (GeneratePaymentRecordsForTenant) -/

/-- Gregorian leap-year rule, as in Go package time. -/
def isLeapYear (y : Nat) : Bool :=
  decide ((y % 4 = 0 ∧ y % 100 ≠ 0) ∨ y % 400 = 0)

def daysInMonth (y m : Nat) : Nat :=
  if m = 2 then (if isLeapYear y then 29 else 28)
  else if m = 4 ∨ m = 6 ∨ m = 9 ∨ m = 11 then 30
  else 31

/-- Embeds Go time.Parse("2006-01-02", s): fixed-width year, month and day
digits with dashes, month in 1..12, day within the month.  Returns
(year, month, day). -/
def parseDate (s : String) : Option (Nat × Nat × Nat) :=
  match s.data with
  | [y1, y2, y3, y4, s1, m1, m2, s2, d1, d2] =>
      if s1 = '-' ∧ s2 = '-' ∧ y1.isDigit ∧ y2.isDigit ∧ y3.isDigit ∧ y4.isDigit
          ∧ m1.isDigit ∧ m2.isDigit ∧ d1.isDigit ∧ d2.isDigit then
        if 1 ≤ digitVal m1 * 10 + digitVal m2 ∧ digitVal m1 * 10 + digitVal m2 ≤ 12 then
          if 1 ≤ digitVal d1 * 10 + digitVal d2 ∧
              digitVal d1 * 10 + digitVal d2 ≤
                daysInMonth
                  (digitVal y1 * 1000 + digitVal y2 * 100 + digitVal y3 * 10 + digitVal y4)
                  (digitVal m1 * 10 + digitVal m2) then
            some (digitVal y1 * 1000 + digitVal y2 * 100 + digitVal y3 * 10 + digitVal y4,
              digitVal m1 * 10 + digitVal m2, digitVal d1 * 10 + digitVal d2)
          else none
        else none
      else none
  | _ => none

/-- The zeroed, unlocked snapshot row the generation loop inserts for one
month. -/
def genRow (tenantId : Int) (targetColdRent : ℚ) (numberOfPersons : Int) (now : Nat)
    (nextId : Int) (idx : Nat) : PaymentRecord :=
  { id := nextId, tenantId := tenantId, month := formatYearMonth idx,
    targetColdRent := targetColdRent, paidColdRent := 0, paidAncillary := 0,
    paidElectricity := 0, extraPayments := 0, persons := numberOfPersons,
    note := "", isLocked := false, createdAt := now, updatedAt := now }

/-- One month of the generation loop: if no record exists for the tenant
and month, insert the zeroed, unlocked snapshot row. -/
def genStep (tenantId : Int) (targetColdRent : ℚ) (numberOfPersons : Int) (now : Nat)
    (txdb : DB) (idx : Nat) : DB :=
  if (findByTenantMonth txdb.records tenantId (formatYearMonth idx)).isSome then txdb
  else
    { txdb with
      records := txdb.records ++
        [genRow tenantId targetColdRent numberOfPersons now txdb.nextRecordId idx],
      nextRecordId := txdb.nextRecordId + 1 }

/-- The generation loop from month index `cur`, running for `fuel` months:
the Go loop runs while the month is not after the end month, which is
`end + 1 - start` iterations. -/
def genMonths (tenantId : Int) (targetColdRent : ℚ) (numberOfPersons : Int) (now : Nat) :
    DB → Nat → Nat → DB
  | txdb, _, 0 => txdb
  | txdb, cur, fuel + 1 =>
    genMonths tenantId targetColdRent numberOfPersons now
      (genStep tenantId targetColdRent numberOfPersons now txdb cur) (cur + 1) fuel

/-- End-month resolution of GeneratePaymentRecordsForTenant: the move-out
month when a move-out date is stored, otherwise the current month. -/
def genEndIndex (t : Tenant) (nowMonthIdx : Nat) : Except String Nat :=
  match t.moveOutDate with
  | some d =>
    match parseDate d with
    | none => .error "invalid move-out date format"
    | some q => .ok (monthIndex q.1 q.2.1)
  | none => .ok nowMonthIdx

/-- The body of GeneratePaymentRecordsForTenant once the tenant row has
been fetched: parse the move-in date, resolve the end month, and run the
month loop. -/
def generateForTenant (db : DB) (tenantId : Int) (nowMonthIdx : Nat) (now : Nat)
    (t : Tenant) : DB × Except String Unit :=
  match parseDate t.moveInDate with
  | none => (db, .error "invalid move-in date format")
  | some p =>
    match genEndIndex t nowMonthIdx with
    | .error e => (db, .error e)
    | .ok endIdx =>
      (genMonths tenantId t.targetColdRent t.numberOfPersons now db (monthIndex p.1 p.2.1)
        (endIdx + 1 - monthIndex p.1 p.2.1), .ok ())

/-- Embeds PaymentRecordRepository.GeneratePaymentRecordsForTenant, with the
current calendar month and the write timestamp as explicit parameters. -/
def PaymentRecordRepository.GeneratePaymentRecordsForTenant (db : DB) (tenantId : Int)
    (nowMonthIdx : Nat) (now : Nat) : DB × Except String Unit :=
  match db.tenants.find? (fun t => decide (t.id = tenantId)) with
  | none => (db, .error "tenant not found")
  | some t => generateForTenant db tenantId nowMonthIdx now t

/-! ### Tenant repository operations used by the claims -/

/-- Embeds TenantRepository.GetByID: the query joins houses and apartments,
so the tenant row is only found when its house and apartment also exist. -/
def TenantRepository.GetByID (db : DB) (id : Int) : Except String Tenant :=
  match db.tenants.find? (fun t => decide (t.id = id ∧ t.houseId ∈ db.houseIds ∧
      t.apartmentId ∈ db.apartmentIds)) with
  | none => .error "tenant not found"
  | some t => .ok t

/-- Embeds TenantRepository.Delete. -/
def TenantRepository.Delete (db : DB) (id : Int) : DB × Except String Unit :=
  match TenantRepository.GetByID db id with
  | .error e => (db, .error e)
  | .ok _ =>
    ({ db with tenants := db.tenants.filter (fun t => decide (t.id ≠ id)) }, .ok ())

/-! ### Concrete fixtures used to instantiate the theorems -/

def exTenant : Tenant :=
  { id := 1, moveInDate := "2023-01-15", moveOutDate := none, numberOfPersons := 2,
    targetColdRent := 800, houseId := 1, apartmentId := 1 }

def exLockedRow : PaymentRecord :=
  { id := 1, tenantId := 1, month := "2023-01", targetColdRent := 800, paidColdRent := 100,
    paidAncillary := 20, paidElectricity := 10, extraPayments := 5, persons := 2,
    note := "original", isLocked := true, createdAt := 0, updatedAt := 0 }

def exDB : DB :=
  { houseIds := [1], apartmentIds := [1], tenants := [exTenant], records := [exLockedRow],
    nextRecordId := 2 }

/-- An incoming batch/update record for the stored locked row, with changed
financial fields and note, still locked. -/
def exIncoming : PaymentRecord :=
  { exLockedRow with paidColdRent := 999, note := "new" }

/-- A record whose target cold rent is negative but every field the code
checks is valid. -/
def exNegTarget : PaymentRecord :=
  { exLockedRow with targetColdRent := -1, isLocked := false }

/-- A batch record for a fresh month with a non-positive person count. -/
def exInvalidPersons : PaymentRecord :=
  { exLockedRow with id := 0, month := "2023-02", persons := 0, isLocked := false }

/-- A batch record for a fresh month with a negative paid amount. -/
def exNegPaid : PaymentRecord :=
  { exLockedRow with id := 0, month := "2023-05", paidColdRent := -5, isLocked := false }

/-- A valid batch record for a fresh month. -/
def exFresh : PaymentRecord :=
  { exLockedRow with id := 0, month := "2023-03", isLocked := false }

/-- A batch record referencing a tenant that does not exist. -/
def exAbsentTenant : PaymentRecord :=
  { exLockedRow with id := 0, tenantId := 99, month := "2023-04", isLocked := false }

/-! ### Basic facts about month strings -/

theorem char_eq_of_toNat {c d : Char} (h : c.toNat = d.toNat) : c = d :=
  Char.eq_of_val_eq (UInt32.ext h)

theorem digit_toNat_bounds {c : Char} (h : c.isDigit = true) :
    48 ≤ c.toNat ∧ c.toNat ≤ 57 := by
  simp [Char.isDigit, Char.le_def] at h
  exact ⟨h.1, h.2⟩

theorem digitVal_lt_ten {c : Char} (h : c.isDigit = true) : digitVal c < 10 := by
  have := digit_toNat_bounds h
  simp [digitVal]
  omega

theorem toNat_digitChar {k : Nat} (h : k < 10) : (digitChar k).toNat = 48 + k := by
  interval_cases k <;> decide

theorem isDigit_digitChar {k : Nat} (h : k < 10) : (digitChar k).isDigit = true := by
  interval_cases k <;> decide

theorem digitVal_digitChar {k : Nat} (h : k < 10) : digitVal (digitChar k) = k := by
  simp [digitVal, toNat_digitChar h]

theorem digitChar_digitVal {c : Char} (h : c.isDigit = true) : digitChar (digitVal c) = c := by
  have hb := digit_toNat_bounds h
  apply char_eq_of_toNat
  rw [toNat_digitChar (digitVal_lt_ten h)]
  simp [digitVal]
  omega

theorem parseYearMonth_some {s : String} {y m : Nat}
    (h : parseYearMonth s = some (y, m)) :
    1 ≤ m ∧ m ≤ 12 ∧ y ≤ 9999 := by
  unfold parseYearMonth at h
  rcases hs : s.data with _ | ⟨c1, _ | ⟨c2, _ | ⟨c3, _ | ⟨c4, _ | ⟨c5, _ | ⟨c6, _ | ⟨c7, _ | ⟨c8, rest⟩⟩⟩⟩⟩⟩⟩⟩ <;>
    rw [hs] at h <;> simp only [reduceCtorEq] at h
  split_ifs at h with h1 h2
  obtain ⟨_, d1, d2, d3, d4, d6, d7⟩ := h1
  have v1 := digitVal_lt_ten d1
  have v2 := digitVal_lt_ten d2
  have v3 := digitVal_lt_ten d3
  have v4 := digitVal_lt_ten d4
  simp only [Option.some.injEq, Prod.mk.injEq] at h
  omega

theorem parseYearMonth_mk (c1 c2 c3 c4 c5 c6 c7 : Char) :
    parseYearMonth ⟨[c1, c2, c3, c4, c5, c6, c7]⟩ =
      if c5 = '-' ∧ c1.isDigit ∧ c2.isDigit ∧ c3.isDigit ∧ c4.isDigit
          ∧ c6.isDigit ∧ c7.isDigit then
        if 1 ≤ digitVal c6 * 10 + digitVal c7 ∧ digitVal c6 * 10 + digitVal c7 ≤ 12 then
          some (digitVal c1 * 1000 + digitVal c2 * 100 + digitVal c3 * 10 + digitVal c4,
            digitVal c6 * 10 + digitVal c7)
        else none
      else none := rfl

theorem parseYearMonth_formatYearMonth {idx : Nat} (h : idx < 120000) :
    parseYearMonth (formatYearMonth idx) = some (idx / 12, idx % 12 + 1) := by
  have hy : idx / 12 ≤ 9999 := by omega
  have hmw : ∀ w : Nat, 1 ≤ w → w ≤ 12 →
      (1 ≤ w / 10 % 10 * 10 + w % 10 ∧ w / 10 % 10 * 10 + w % 10 ≤ 12) ∧
        w / 10 % 10 * 10 + w % 10 = w := by
    intro w hw1 hw2; omega
  have hyz : ∀ z : Nat, z ≤ 9999 →
      z / 1000 % 10 * 1000 + z / 100 % 10 * 100 + z / 10 % 10 * 10 + z % 10 = z := by
    intro z hz; omega
  have hw := hmw (idx % 12 + 1) (by omega) (by omega)
  unfold formatYearMonth
  rw [parseYearMonth_mk]
  rw [if_pos ⟨rfl, isDigit_digitChar (by omega), isDigit_digitChar (by omega),
    isDigit_digitChar (by omega), isDigit_digitChar (by omega),
    isDigit_digitChar (by omega), isDigit_digitChar (by omega)⟩]
  rw [digitVal_digitChar (by omega : idx / 12 / 1000 % 10 < 10),
    digitVal_digitChar (by omega : idx / 12 / 100 % 10 < 10),
    digitVal_digitChar (by omega : idx / 12 / 10 % 10 < 10),
    digitVal_digitChar (by omega : idx / 12 % 10 < 10),
    digitVal_digitChar (by omega : (idx % 12 + 1) / 10 % 10 < 10),
    digitVal_digitChar (by omega : (idx % 12 + 1) % 10 < 10)]
  rw [if_pos hw.1]
  simp only [Option.some.injEq, Prod.mk.injEq]
  exact ⟨hyz _ hy, hw.2⟩

theorem formatYearMonth_monthIndex {s : String} {y m : Nat}
    (h : parseYearMonth s = some (y, m)) :
    formatYearMonth (monthIndex y m) = s := by
  unfold parseYearMonth at h
  rcases hs : s.data with _ | ⟨c1, _ | ⟨c2, _ | ⟨c3, _ | ⟨c4, _ | ⟨c5, _ | ⟨c6, _ | ⟨c7, _ | ⟨c8, rest⟩⟩⟩⟩⟩⟩⟩⟩ <;>
    rw [hs] at h <;> simp only [reduceCtorEq] at h
  split_ifs at h with h1 h2
  obtain ⟨hsep, d1, d2, d3, d4, d6, d7⟩ := h1
  have v1 := digitVal_lt_ten d1
  have v2 := digitVal_lt_ten d2
  have v3 := digitVal_lt_ten d3
  have v4 := digitVal_lt_ten d4
  have v6 := digitVal_lt_ten d6
  have v7 := digitVal_lt_ten d7
  simp only [Option.some.injEq, Prod.mk.injEq] at h
  obtain ⟨hy, hm⟩ := h
  subst hsep
  unfold formatYearMonth monthIndex
  have hdiv : (y * 12 + (m - 1)) / 12 = y := by omega
  have hmod : (y * 12 + (m - 1)) % 12 + 1 = m := by omega
  rw [hdiv, hmod]
  have e1 : y / 1000 % 10 = digitVal c1 := by omega
  have e2 : y / 100 % 10 = digitVal c2 := by omega
  have e3 : y / 10 % 10 = digitVal c3 := by omega
  have e4 : y % 10 = digitVal c4 := by omega
  have e6 : m / 10 % 10 = digitVal c6 := by omega
  have e7 : m % 10 = digitVal c7 := by omega
  rw [e1, e2, e3, e4, e6, e7,
    digitChar_digitVal d1, digitChar_digitVal d2, digitChar_digitVal d3,
    digitChar_digitVal d4, digitChar_digitVal d6, digitChar_digitVal d7]
  apply String.ext
  rw [hs]

theorem monthsFrom_cons {a b : Nat} (h : a ≤ b) :
    monthsFrom a b = formatYearMonth a :: monthsFrom (a + 1) b := by
  rw [monthsFrom]
  simp [Nat.not_lt.mpr h]

theorem monthsFrom_nil {a b : Nat} (h : b < a) : monthsFrom a b = [] := by
  rw [monthsFrom]
  simp [h]

theorem monthsFrom_length {a b : Nat} (h : a ≤ b) :
    (monthsFrom a b).length = b - a + 1 := by
  have hfuel : ∀ fuel a b, a ≤ b → b + 1 - a = fuel → (monthsFrom a b).length = b - a + 1 := by
    intro fuel
    induction fuel with
    | zero => intro a b hab hf; omega
    | succ n ih =>
      intro a b hab hf
      rw [monthsFrom_cons hab]
      by_cases hend : a = b
      · subst hend
        rw [monthsFrom_nil (by omega)]
        simp
      · have : (monthsFrom (a + 1) b).length = b - (a + 1) + 1 := ih (a + 1) b (by omega) (by omega)
        simp [this]
        omega
  exact hfuel (b + 1 - a) a b h rfl

theorem monthsFrom_getElem? {a b : Nat} (h : a ≤ b) :
    ∀ i, i ≤ b - a → (monthsFrom a b)[i]? = some (formatYearMonth (a + i)) := by
  have hfuel : ∀ fuel a b, a ≤ b → b + 1 - a = fuel →
      ∀ i, i ≤ b - a → (monthsFrom a b)[i]? = some (formatYearMonth (a + i)) := by
    intro fuel
    induction fuel with
    | zero => intro a b hab hf; omega
    | succ n ih =>
      intro a b hab hf i hi
      rw [monthsFrom_cons hab]
      rcases i with _ | j
      · simp
      · simp only [List.getElem?_cons_succ]
        have : (monthsFrom (a + 1) b)[j]? = some (formatYearMonth (a + 1 + j)) :=
          ih (a + 1) b (by omega) (by omega) j (by omega)
        rw [this]
        congr 2
        omega
  exact hfuel (b + 1 - a) a b h rfl

/-! ### Helper lemmas on dropWhile, map, trimming -/

theorem dropWhile_dropWhile (p : Char → Bool) (l : List Char) :
    (l.dropWhile p).dropWhile p = l.dropWhile p := by
  induction l with
  | nil => rfl
  | cons a t ih =>
    rw [List.dropWhile_cons]
    by_cases hp : p a = true
    · rw [if_pos hp]
      exact ih
    · rw [if_neg hp, List.dropWhile_cons, if_neg hp]

theorem length_dropWhile_le (p : Char → Bool) (l : List Char) :
    (l.dropWhile p).length ≤ l.length :=
  (List.dropWhile_suffix p).length_le

theorem head_false_of_dropWhile_eq_self {p : Char → Bool} {l : List Char} {a : Char}
    (h : l.dropWhile p = l) (ha : l.head? = some a) : p a = false := by
  cases l with
  | nil => simp at ha
  | cons x t =>
    simp only [List.head?_cons, Option.some.injEq] at ha
    subst ha
    rw [List.dropWhile_cons] at h
    by_cases hp : p x = true
    · rw [if_pos hp] at h
      have h1 := length_dropWhile_le p t
      have h2 : (t.dropWhile p).length = t.length + 1 := by rw [h]; rfl
      omega
    · simpa using hp

theorem dropWhile_eq_self_of_head {p : Char → Bool} {l : List Char}
    (h : ∀ a, l.head? = some a → p a = false) : l.dropWhile p = l := by
  cases l with
  | nil => rfl
  | cons x t =>
    have hx := h x rfl
    rw [List.dropWhile_cons, hx]
    simp

/-- Head-to-tail trimming of a character list, the core of trimSpace. -/
theorem trim_list_idem (p : Char → Bool) (l : List Char) :
    (((((l.dropWhile p).reverse.dropWhile p).reverse).dropWhile p).reverse.dropWhile p).reverse
      = ((l.dropWhile p).reverse.dropWhile p).reverse := by
  have hA : (l.dropWhile p).dropWhile p = l.dropWhile p := dropWhile_dropWhile p l
  have hBfix : (((l.dropWhile p).reverse.dropWhile p).reverse).dropWhile p =
      ((l.dropWhile p).reverse.dropWhile p).reverse := by
    apply dropWhile_eq_self_of_head
    intro a ha
    obtain ⟨u, hu⟩ := List.dropWhile_suffix (l := (l.dropWhile p).reverse) p
    have hsplit : l.dropWhile p =
        ((l.dropWhile p).reverse.dropWhile p).reverse ++ u.reverse := by
      have := congrArg List.reverse hu
      simpa [List.reverse_append] using this.symm
    apply head_false_of_dropWhile_eq_self hA
    rw [hsplit, List.head?_append, ha]
    rfl
  rw [hBfix, List.reverse_reverse, dropWhile_dropWhile]

theorem trimSpace_idem (s : String) : trimSpace (trimSpace s) = trimSpace s := by
  show String.mk _ = String.mk _
  exact congrArg String.mk (trim_list_idem goIsSpace s.data)

theorem goIsSpace_swapComma (c : Char) :
    goIsSpace (if c = ',' then '.' else c) = goIsSpace c := by
  by_cases h : c = ','
  · subst h; decide
  · simp [h]

theorem commaToDot_trimSpace (s : String) :
    commaToDot (trimSpace s) = trimSpace (commaToDot s) := by
  show String.mk _ = String.mk _
  have hcomp : (goIsSpace ∘ fun c => if c = ',' then '.' else c) = goIsSpace :=
    funext goIsSpace_swapComma
  congr 1
  simp only [commaToDot, trimSpace, List.dropWhile_map, hcomp, ← List.map_reverse]

theorem commaToDot_idem (s : String) : commaToDot (commaToDot s) = commaToDot s := by
  show String.mk _ = String.mk _
  congr 1
  simp only [commaToDot, List.map_map]
  congr 1
  funext c
  by_cases h : c = ','
  · subst h; decide
  · simp [h]

theorem commaToDot_eq_empty {s : String} (h : commaToDot s = "") : s = "" := by
  have hd : s.data.map (fun c => if c = ',' then '.' else c) = [] := congrArg String.data h
  rw [List.map_eq_nil_iff] at hd
  cases s
  simp_all

/-! ### C3: Validate characterization -/

/-- C3 (counterexample): a record whose targetColdRent is negative but whose
code-checked fields are all valid passes Validate, so Validate does NOT fail
for every record with a negative monetary field: the claimed iff (which
lists targetColdRent among the checked monetary fields) is false. -/
theorem c3_counterexample :
    exNegTarget.Validate = .ok () ∧ exNegTarget.targetColdRent < 0 := by
  constructor
  · rfl
  · decide

/-- C3 (amended): Validate succeeds iff the tenant id is positive, the month
parses with the YYYY-MM layout, persons is positive, and the four PAID
monetary fields (paidColdRent, paidAncillary, paidElectricity,
extraPayments) are non-negative — targetColdRent is not checked.  Each
failing check produces the error naming the first violated constraint, in
the order of the checks. -/
theorem c3_validate_characterization (p : PaymentRecord) :
    (p.Validate = .ok () ↔
      (0 < p.tenantId ∧ (parseYearMonth p.month).isSome = true ∧ 0 < p.persons ∧
        0 ≤ p.paidColdRent ∧ 0 ≤ p.paidAncillary ∧ 0 ≤ p.paidElectricity ∧
        0 ≤ p.extraPayments)) ∧
    (p.tenantId ≤ 0 → p.Validate = .error "invalid tenant ID") ∧
    (0 < p.tenantId → parseYearMonth p.month = none →
      p.Validate = .error "invalid month format: must be YYYY-MM") ∧
    (0 < p.tenantId → (parseYearMonth p.month).isSome = true → p.persons ≤ 0 →
      p.Validate = .error "number of persons must be greater than 0") ∧
    (0 < p.tenantId → (parseYearMonth p.month).isSome = true → 0 < p.persons →
      (p.paidColdRent < 0 ∨ p.paidAncillary < 0 ∨ p.paidElectricity < 0 ∨
        p.extraPayments < 0) →
      p.Validate = .error "payment amounts cannot be negative") := by
  unfold PaymentRecord.Validate
  split_ifs with h1 h2 h3 h4
  · refine ⟨?_, fun _ => rfl, ?_, ?_, ?_⟩
    · simp only [reduceCtorEq, false_iff]
      rintro ⟨hx, -⟩
      omega
    · intro hx _
      exact absurd hx (by omega)
    · intro hx _ _
      exact absurd hx (by omega)
    · intro hx _ _ _
      exact absurd hx (by omega)
  · have hnone : parseYearMonth p.month = none := Option.isNone_iff_eq_none.mp h2
    refine ⟨?_, ?_, fun _ _ => rfl, ?_, ?_⟩
    · simp only [reduceCtorEq, false_iff]
      rintro ⟨-, hs, -⟩
      rw [hnone] at hs
      simp at hs
    · intro hx
      exact absurd hx (by omega)
    · intro _ hs _
      rw [hnone] at hs
      simp at hs
    · intro _ hs _ _
      rw [hnone] at hs
      simp at hs
  · refine ⟨?_, ?_, ?_, fun _ _ _ => rfl, ?_⟩
    · simp only [reduceCtorEq, false_iff]
      rintro ⟨-, -, hx, -⟩
      omega
    · intro hx
      exact absurd hx (by omega)
    · intro _ hnone
      rw [hnone] at h2
      simp at h2
    · intro _ _ hx _
      exact absurd hx (by omega)
  · refine ⟨?_, ?_, ?_, ?_, fun _ _ _ _ => rfl⟩
    · simp only [reduceCtorEq, false_iff]
      rintro ⟨-, -, -, c1, c2, c3, c4⟩
      rcases h4 with h | h | h | h <;> linarith
    · intro hx
      exact absurd hx (by omega)
    · intro _ hnone
      rw [hnone] at h2
      simp at h2
    · intro _ _ hx
      exact absurd hx (by omega)
  · push_neg at h4
    refine ⟨?_, ?_, ?_, ?_, ?_⟩
    · simp only [true_iff]
      refine ⟨by omega, ?_, by omega, h4.1, h4.2.1, h4.2.2.1, h4.2.2.2⟩
      cases hopt : parseYearMonth p.month with
      | none => rw [hopt] at h2; simp at h2
      | some v => simp
    · intro hx
      exact absurd hx (by omega)
    · intro _ hnone
      rw [hnone] at h2
      simp at h2
    · intro _ _ hx
      exact absurd hx (by omega)
    · intro _ _ _ hd
      rcases hd with h | h | h | h <;> linarith [h4.1, h4.2.1, h4.2.2.1, h4.2.2.2]

/-- C3 witness: a record with a non-positive tenant id is rejected with the
tenant-id error. -/
theorem c3_validate_characterization_witness :
    ({ exLockedRow with tenantId := 0 } : PaymentRecord).Validate =
      .error "invalid tenant ID" :=
  (c3_validate_characterization _).2.1 (by decide)

/-! ### C8: ParseAmount -/

/-- C8: ParseAmount parses the empty string to zero with no error, treats
a comma exactly like a dot, ignores surrounding whitespace, and fails when
strconv.ParseFloat reports a syntax error or a range error and when the
parsed result is negative; every other input yields the parsed value with
no error. -/
theorem c8_parse_amount_spec :
    ParseAmount "" = .ok (.finite 0) ∧
    (∀ s, ParseAmount (commaToDot s) = ParseAmount s) ∧
    (∀ s, trimSpace s ≠ "" → ParseAmount (trimSpace s) = ParseAmount s) ∧
    (∀ s, s ≠ "" → parseFloat (commaToDot (trimSpace s)) = none →
      ParseAmount s = .error "invalid amount syntax") ∧
    (∀ (s : String) (v : GoFloat), s ≠ "" →
      parseFloat (commaToDot (trimSpace s)) = some (v, true) →
      ParseAmount s = .error "value out of range") ∧
    (∀ (s : String) (v : GoFloat), s ≠ "" →
      parseFloat (commaToDot (trimSpace s)) = some (v, false) → isNegValue v = true →
      ParseAmount s = .error "amount cannot be negative") ∧
    (∀ (s : String) (v : GoFloat), s ≠ "" →
      parseFloat (commaToDot (trimSpace s)) = some (v, false) → isNegValue v = false →
      ParseAmount s = .ok v) := by
  refine ⟨rfl, ?_, ?_, ?_, ?_, ?_, ?_⟩
  · intro s
    by_cases hs : s = ""
    · subst hs; rfl
    · have hcs : commaToDot s ≠ "" := fun h => hs (commaToDot_eq_empty h)
      unfold ParseAmount
      rw [if_neg hcs, if_neg hs, ← commaToDot_trimSpace, commaToDot_idem]
  · intro s hts
    have hs : s ≠ "" := by
      intro h
      apply hts
      rw [h]
      rfl
    unfold ParseAmount
    rw [if_neg hts, if_neg hs, trimSpace_idem]
  · intro s hs hp
    unfold ParseAmount
    rw [if_neg hs, hp]
  · intro s v hs hp
    unfold ParseAmount
    rw [if_neg hs, hp]
    rfl
  · intro s v hs hp hneg
    unfold ParseAmount
    rw [if_neg hs, hp]
    simp [hneg]
  · intro s v hs hp hneg
    unfold ParseAmount
    rw [if_neg hs, hp]
    simp [hneg]

/-- C8 witness: a whitespace-padded non-numeric input is rejected as
unparseable; a negative infinity is rejected as negative; a positive
infinity parses with no error (it is not negative); an overflowing decimal
is rejected with the range error. -/
theorem c8_parse_amount_spec_witness :
    ParseAmount " x " = .error "invalid amount syntax" ∧
    ParseAmount "-inf" = .error "amount cannot be negative" ∧
    ParseAmount "inf" = .ok GoFloat.posInf ∧
    ParseAmount "1e999" = .error "value out of range" := by
  have hnum : parseNumber ("1e999".data) = some (decValue false 1 0 999) := rfl
  have hval : decValue false 1 0 999 = 10 ^ 999 := by
    unfold decValue pow10
    rw [show ((999 : Int)).toNat = 999 from rfl]
    norm_num
  have hcut : classifyFloat (.finite (decValue false 1 0 999)) =
      if floatOverflowThreshold ≤ |decValue false 1 0 999| then
        (if decValue false 1 0 999 < 0 then GoFloat.negInf else GoFloat.posInf, true)
      else if |decValue false 1 0 999| ≤ floatZeroThreshold then (GoFloat.finite 0, false)
      else (GoFloat.finite (decValue false 1 0 999), false) := rfl
  have hpos : (0 : ℚ) < decValue false 1 0 999 := by
    rw [hval]
    positivity
  have hover : floatOverflowThreshold ≤ |decValue false 1 0 999| := by
    rw [hval, abs_of_pos (by positivity)]
    unfold floatOverflowThreshold
    norm_num
  have hcls : classifyFloat (.finite (decValue false 1 0 999)) = (GoFloat.posInf, true) := by
    rw [hcut, if_pos hover, if_neg (not_lt.mpr (le_of_lt hpos))]
  have hpf : parseFloat "1e999" = some (GoFloat.posInf, true) := by
    unfold parseFloat
    rw [show parseSpecial ("1e999".data) = none from rfl, hnum]
    show some (classifyFloat (GoFloat.finite (decValue false 1 0 999))) =
      some (GoFloat.posInf, true)
    rw [hcls]
  refine ⟨c8_parse_amount_spec.2.2.2.1 " x " (by decide) rfl,
    c8_parse_amount_spec.2.2.2.2.2.1 "-inf" GoFloat.negInf (by decide) rfl rfl,
    c8_parse_amount_spec.2.2.2.2.2.2 "inf" GoFloat.posInf (by decide) rfl rfl,
    c8_parse_amount_spec.2.2.2.2.1 "1e999" GoFloat.posInf (by decide) ?_⟩
  have h1 : commaToDot (trimSpace "1e999") = "1e999" := rfl
  rw [h1, hpf]

/-! ### Helper lemmas on find? and the update statement -/

theorem find?_map_of_pred_eq {α : Type} (f : α → α) (p : α → Bool) (l : List α)
    (h : ∀ a, p (f a) = p a) : (l.map f).find? p = (l.find? p).map f := by
  induction l with
  | nil => rfl
  | cons a t ih =>
    simp only [List.map_cons, List.find?_cons, h a]
    cases hp : p a <;> simp [hp, ih]

theorem applyUpdateRow_id (src : PaymentRecord) (now : Nat) (id : Int)
    (row : PaymentRecord) : (applyUpdateRow src now id row).id = row.id := by
  unfold applyUpdateRow
  split_ifs <;> rfl

theorem applyUpdateRow_frame (src : PaymentRecord) (now : Nat) (id : Int)
    (row : PaymentRecord) :
    (applyUpdateRow src now id row).tenantId = row.tenantId ∧
    (applyUpdateRow src now id row).month = row.month ∧
    (applyUpdateRow src now id row).targetColdRent = row.targetColdRent ∧
    (applyUpdateRow src now id row).createdAt = row.createdAt := by
  unfold applyUpdateRow
  split_ifs <;> exact ⟨rfl, rfl, rfl, rfl⟩

theorem update_of_validate_error (db : DB) (now : Nat) (r : PaymentRecord) (e : String)
    (h : r.Validate = .error e) :
    PaymentRecordRepository.Update db now r = (db, .error e) := by
  unfold PaymentRecordRepository.Update
  rw [h]

theorem update_of_getByID_error (db : DB) (now : Nat) (r : PaymentRecord) (e : String)
    (hv : r.Validate = .ok ()) (h : recordGetByID db r.id = .error e) :
    PaymentRecordRepository.Update db now r = (db, .error e) := by
  unfold PaymentRecordRepository.Update
  rw [hv, h]

theorem update_eq (db : DB) (now : Nat) (r ex : PaymentRecord)
    (hv : r.Validate = .ok ()) (hg : recordGetByID db r.id = .ok ex) :
    PaymentRecordRepository.Update db now r =
      ({ db with
          records := db.records.map (applyUpdateRow (mergeLockedFields ex r) now r.id) },
        .ok { mergeLockedFields ex r with updatedAt := now }) := by
  unfold PaymentRecordRepository.Update
  rw [hv, hg]

/-! ### C9: not-found failures leave storage unchanged -/

/-- C9: deleting a payment record whose id is absent, updating a (valid)
payment record whose id is absent, and deleting a tenant whose id is
absent all fail with the not-found error and return the storage
unchanged. -/
theorem c9_not_found_spec :
    (∀ db id, db.records.find? (fun r => decide (r.id = id)) = none →
      PaymentRecordRepository.Delete db id = (db, .error "payment record not found")) ∧
    (∀ db now r, r.Validate = .ok () →
      db.records.find? (fun x => decide (x.id = r.id)) = none →
      PaymentRecordRepository.Update db now r = (db, .error "payment record not found")) ∧
    (∀ db id, db.tenants.find? (fun t => decide (t.id = id)) = none →
      TenantRepository.Delete db id = (db, .error "tenant not found")) := by
  refine ⟨?_, ?_, ?_⟩
  · intro db id h
    unfold PaymentRecordRepository.Delete recordGetByID
    rw [h]
  · intro db now r hv h
    unfold PaymentRecordRepository.Update recordGetByID
    rw [hv, h]
  · intro db id h
    have h2 : db.tenants.find? (fun t => decide (t.id = id ∧ t.houseId ∈ db.houseIds ∧
        t.apartmentId ∈ db.apartmentIds)) = none := by
      rw [List.find?_eq_none] at h ⊢
      intro t ht hdec
      exact h t ht (by simp_all)
    unfold TenantRepository.Delete TenantRepository.GetByID
    rw [h2]

/-- C9 witness: with one stored tenant and one stored record (ids 1), all
three operations fail on id 77 or 99 and leave the state untouched. -/
theorem c9_not_found_spec_witness :
    PaymentRecordRepository.Delete exDB 99 = (exDB, .error "payment record not found") ∧
    PaymentRecordRepository.Update exDB 5 { exIncoming with id := 77 } =
      (exDB, .error "payment record not found") ∧
    TenantRepository.Delete exDB 99 = (exDB, .error "tenant not found") :=
  ⟨c9_not_found_spec.1 exDB 99 (by decide),
   c9_not_found_spec.2.1 exDB 5 { exIncoming with id := 77 } rfl (by decide),
   c9_not_found_spec.2.2 exDB 99 (by decide)⟩

/-! ### C10: the update statement only writes the mutable columns -/

/-- C10: a successful single-record update preserves, for every stored row,
the tenant_id, month, target_cold_rent and created_at columns: the UPDATE
statement writes only the paid fields, persons, note, lock flag and
updated_at. -/
theorem c10_update_frame (db : DB) (now : Nat) (r out : PaymentRecord)
    (h : (PaymentRecordRepository.Update db now r).2 = .ok out) :
    (PaymentRecordRepository.Update db now r).1.records.length = db.records.length ∧
    ∀ (i : Nat) (r1 r2 : PaymentRecord), db.records[i]? = some r1 →
      (PaymentRecordRepository.Update db now r).1.records[i]? = some r2 →
      r2.tenantId = r1.tenantId ∧ r2.month = r1.month ∧
      r2.targetColdRent = r1.targetColdRent ∧ r2.createdAt = r1.createdAt := by
  cases hv : r.Validate with
  | error e =>
    rw [update_of_validate_error db now r e hv] at h
    simp at h
  | ok u =>
    obtain ⟨⟩ := u
    cases hg : recordGetByID db r.id with
    | error e =>
      rw [update_of_getByID_error db now r e hv hg] at h
      simp at h
    | ok ex =>
      rw [update_eq db now r ex hv hg]
      constructor
      · simp
      · intro i r1 r2 h1 h2
        simp only [List.getElem?_map, h1, Option.map_some'] at h2
        injection h2 with h2
        exact h2 ▸ applyUpdateRow_frame _ now r.id r1

/-- C10 witness: updating the stored locked row keeps its identity, month,
target rent and creation time. -/
theorem c10_update_frame_witness :
    (PaymentRecordRepository.Update exDB 5 exIncoming).1.records.length =
      exDB.records.length ∧
    ∀ (i : Nat) (r1 r2 : PaymentRecord), exDB.records[i]? = some r1 →
      (PaymentRecordRepository.Update exDB 5 exIncoming).1.records[i]? = some r2 →
      r2.tenantId = r1.tenantId ∧ r2.month = r1.month ∧
      r2.targetColdRent = r1.targetColdRent ∧ r2.createdAt = r1.createdAt :=
  c10_update_frame exDB 5 exIncoming
    { exLockedRow with note := "new", updatedAt := 5 } rfl

/-! ### C1: the batch path does not apply the lock rule -/

/-- C1 (counterexample): batch upsert of a locked incoming record onto an
already locked stored row overwrites the stored financial fields: stored
paidColdRent 100, incoming 999, and after the batch the stored value is
999, not the prior 100 the claim requires. -/
theorem c1_counterexample :
    exLockedRow.isLocked = true ∧ exIncoming.isLocked = true ∧
    findByTenantMonth exDB.records exIncoming.tenantId exIncoming.month =
      some exLockedRow ∧
    exLockedRow.paidColdRent = 100 ∧
    ((PaymentRecordRepository.BatchCreateOrUpdateRecords exDB 5 [exIncoming]).1.records.map
      (fun r => r.paidColdRent)) = [999] :=
  ⟨rfl, rfl, rfl, rfl, rfl⟩

/-- C1 (amended): in batch upsert, an incoming record whose (tenantId,
month) pair matches a stored row is written through the update statement
unconditionally — the stored lock flag is never consulted, so the incoming
financial fields, note and lock flag replace the stored ones even when both
sides are locked.  The single-record locked rule does not apply in the
batch path. -/
theorem c1_batch_update_overwrites (db : DB) (now : Nat) (r ex : PaymentRecord)
    (hf : findByTenantMonth db.records r.tenantId r.month = some ex) :
    PaymentRecordRepository.BatchCreateOrUpdateRecords db now [r] =
      ({ db with records := db.records.map (applyUpdateRow r now ex.id) },
        .ok [{ r with id := ex.id, updatedAt := now }]) := by
  unfold PaymentRecordRepository.BatchCreateOrUpdateRecords
  simp only [batchGo, batchStep, hf]

/-- C1 witness: the locked stored row is overwritten by the locked incoming
record in a one-element batch. -/
theorem c1_batch_update_overwrites_witness :
    PaymentRecordRepository.BatchCreateOrUpdateRecords exDB 5 [exIncoming] =
      ({ exDB with records := exDB.records.map (applyUpdateRow exIncoming 5 exLockedRow.id) },
        .ok [{ exIncoming with id := exLockedRow.id, updatedAt := 5 }]) :=
  c1_batch_update_overwrites exDB 5 exIncoming exLockedRow rfl

/-! ### C2: Validate is not invoked on the batch and generation paths -/

/-- C2 (counterexample): the batch path never calls Validate: a batch
record with persons = 0 — which Validate rejects — is inserted
successfully, so not every row written to payment_records satisfies the
validity checks. -/
theorem c2_counterexample :
    exInvalidPersons.Validate = .error "number of persons must be greater than 0" ∧
    (PaymentRecordRepository.BatchCreateOrUpdateRecords exDB 5 [exInvalidPersons]).2 =
      .ok [{ exInvalidPersons with id := 2, createdAt := 5, updatedAt := 5 }] ∧
    ((PaymentRecordRepository.BatchCreateOrUpdateRecords exDB 5
        [exInvalidPersons]).1.records.map (fun r => r.Validate)) =
      [.ok (), .error "number of persons must be greater than 0"] :=
  ⟨rfl, rfl, rfl⟩

/-- C2 (amended): Validate gates the single-record Create and Update writes
(an invalid record aborts them with the validation error and unchanged
state), but BatchCreateOrUpdateRecords and GeneratePaymentRecordsForTenant
never invoke Validate, so batch input reaches storage unverified: a batch
row with a negative paid amount persists. -/
theorem c2_validate_gating :
    (∀ db now r e, r.Validate = .error e →
      PaymentRecordRepository.Create db now r = (db, .error e)) ∧
    (∀ db now r e, r.Validate = .error e →
      PaymentRecordRepository.Update db now r = (db, .error e)) ∧
    ((PaymentRecordRepository.BatchCreateOrUpdateRecords exDB 5 [exNegPaid]).2 =
      .ok [{ exNegPaid with id := 2, createdAt := 5, updatedAt := 5 }] ∧
      ((PaymentRecordRepository.BatchCreateOrUpdateRecords exDB 5
          [exNegPaid]).1.records.map (fun r => r.Validate)) =
        [.ok (), .error "payment amounts cannot be negative"]) := by
  refine ⟨?_, ?_, rfl, rfl⟩
  · intro db now r e h
    unfold PaymentRecordRepository.Create
    rw [h]
  · intro db now r e h
    exact update_of_validate_error db now r e h

/-- C2 witness: an invalid record (persons = 0) is rejected unchanged by
both single-record writes. -/
theorem c2_validate_gating_witness :
    PaymentRecordRepository.Create exDB 5 exInvalidPersons =
      (exDB, .error "number of persons must be greater than 0") ∧
    PaymentRecordRepository.Update exDB 5 exInvalidPersons =
      (exDB, .error "number of persons must be greater than 0") :=
  ⟨c2_validate_gating.1 exDB 5 exInvalidPersons _ rfl,
   c2_validate_gating.2.1 exDB 5 exInvalidPersons _ rfl⟩

/-! ### C6: batch upsert is atomic; absent pairs insert as provided -/

/-- C6: any batch failure returns the pre-call storage unchanged; a batch
in which one record references a non-existent tenant fails this way even
when the other records are valid; and a one-record batch for an absent
(tenantId, month) pair with an existing tenant inserts exactly the
provided values — lock flag included — as a new row. -/
theorem c6_batch_atomicity :
    (∀ db now records e,
      (PaymentRecordRepository.BatchCreateOrUpdateRecords db now records).2 = .error e →
      (PaymentRecordRepository.BatchCreateOrUpdateRecords db now records).1 = db) ∧
    (PaymentRecordRepository.BatchCreateOrUpdateRecords exDB 5 [exFresh, exAbsentTenant] =
      (exDB, .error "tenant not found")) ∧
    (∀ db now r, findByTenantMonth db.records r.tenantId r.month = none →
      tenantCount db r.tenantId ≠ 0 →
      PaymentRecordRepository.BatchCreateOrUpdateRecords db now [r] =
        ({ db with
            records := db.records ++
              [{ r with id := db.nextRecordId, createdAt := now, updatedAt := now }],
            nextRecordId := db.nextRecordId + 1 },
          .ok [{ r with id := db.nextRecordId, createdAt := now, updatedAt := now }])) := by
  refine ⟨?_, rfl, ?_⟩
  · intro db now records e h
    unfold PaymentRecordRepository.BatchCreateOrUpdateRecords at h ⊢
    cases hb : batchGo now db records with
    | error e2 => rfl
    | ok p =>
      obtain ⟨txdb, rs⟩ := p
      rw [hb] at h
      simp at h
  · intro db now r hf hc
    unfold PaymentRecordRepository.BatchCreateOrUpdateRecords
    simp only [batchGo, batchStep, hf, if_neg hc]

/-- C6 witness: a fresh (tenant, month) pair for the existing tenant is
inserted with the provided values. -/
theorem c6_batch_atomicity_witness :
    PaymentRecordRepository.BatchCreateOrUpdateRecords exDB 5 [exFresh] =
      ({ exDB with
          records := exDB.records ++
            [{ exFresh with id := exDB.nextRecordId, createdAt := 5, updatedAt := 5 }],
          nextRecordId := exDB.nextRecordId + 1 },
        .ok [{ exFresh with id := exDB.nextRecordId, createdAt := 5, updatedAt := 5 }]) :=
  c6_batch_atomicity.2.2 exDB 5 exFresh rfl (by decide)

/-! ### C4: single-record update lock semantics -/

/-- C4: when the stored row is locked and the caller keeps it locked, the
update silently resets the financial fields and persons to their stored
values before the write — the stored row keeps its financial fields while
note and the lock flag take the caller values; when the update unlocks the
row or the row was unlocked, every caller-supplied field is written as
given. -/
theorem c4_update_lock_semantics (db : DB) (now : Nat) (r ex : PaymentRecord)
    (hv : r.Validate = .ok ()) (hg : recordGetByID db r.id = .ok ex) :
    ((ex.isLocked = true ∧ r.isLocked = true) →
      (PaymentRecordRepository.Update db now r).2 =
        .ok { r with
            paidColdRent := ex.paidColdRent, paidAncillary := ex.paidAncillary,
            paidElectricity := ex.paidElectricity, extraPayments := ex.extraPayments,
            persons := ex.persons, updatedAt := now } ∧
      recordGetByID (PaymentRecordRepository.Update db now r).1 r.id =
        .ok { ex with note := r.note, isLocked := r.isLocked, updatedAt := now }) ∧
    (¬(ex.isLocked = true ∧ r.isLocked = true) →
      (PaymentRecordRepository.Update db now r).2 = .ok { r with updatedAt := now } ∧
      recordGetByID (PaymentRecordRepository.Update db now r).1 r.id =
        .ok { ex with
            paidColdRent := r.paidColdRent, paidAncillary := r.paidAncillary,
            paidElectricity := r.paidElectricity, extraPayments := r.extraPayments,
            persons := r.persons, note := r.note, isLocked := r.isLocked,
            updatedAt := now }) := by
  have hfind : db.records.find? (fun x => decide (x.id = r.id)) = some ex := by
    unfold recordGetByID at hg
    cases hf : db.records.find? (fun x => decide (x.id = r.id)) with
    | none => rw [hf] at hg; simp at hg
    | some x =>
      rw [hf] at hg
      injection hg with hx
      rw [hx]
  have hexid : ex.id = r.id := by
    have := List.find?_some hfind
    simpa using this
  have hpred : ∀ a : PaymentRecord,
      (fun x => decide (x.id = r.id))
        (applyUpdateRow (mergeLockedFields ex r) now r.id a) =
      (fun x => decide (x.id = r.id)) a := by
    intro a
    simp [applyUpdateRow_id]
  constructor
  · rintro ⟨hl1, hl2⟩
    have hm : mergeLockedFields ex r =
        { r with
          paidColdRent := ex.paidColdRent, paidAncillary := ex.paidAncillary,
          paidElectricity := ex.paidElectricity, extraPayments := ex.extraPayments,
          persons := ex.persons } := by
      unfold mergeLockedFields
      rw [if_pos ⟨hl1, hl2⟩]
    constructor
    · rw [update_eq db now r ex hv hg, hm]
    · rw [update_eq db now r ex hv hg]
      unfold recordGetByID
      rw [find?_map_of_pred_eq _ _ _ hpred, hfind]
      simp only [Option.map_some']
      unfold applyUpdateRow
      rw [if_pos hexid, hm]
  · intro hnl
    have hm : mergeLockedFields ex r = r := by
      unfold mergeLockedFields
      rw [if_neg hnl]
    constructor
    · rw [update_eq db now r ex hv hg, hm]
    · rw [update_eq db now r ex hv hg]
      unfold recordGetByID
      rw [find?_map_of_pred_eq _ _ _ hpred, hfind]
      simp only [Option.map_some']
      unfold applyUpdateRow
      rw [if_pos hexid, hm]

/-- C4 witness: with the locked stored row and a locked incoming update,
the stored financial fields survive and the new note and lock flag are
applied. -/
theorem c4_update_lock_semantics_witness :
    (PaymentRecordRepository.Update exDB 5 exIncoming).2 =
      .ok { exIncoming with
          paidColdRent := exLockedRow.paidColdRent,
          paidAncillary := exLockedRow.paidAncillary,
          paidElectricity := exLockedRow.paidElectricity,
          extraPayments := exLockedRow.extraPayments,
          persons := exLockedRow.persons, updatedAt := 5 } ∧
    recordGetByID (PaymentRecordRepository.Update exDB 5 exIncoming).1 exIncoming.id =
      .ok { exLockedRow with note := "new", isLocked := true, updatedAt := 5 } :=
  (c4_update_lock_semantics exDB 5 exIncoming exLockedRow rfl rfl).1 ⟨rfl, rfl⟩

/-! ### C7: GetMonthsRange -/

/-- C7: for parseable bounds in ascending order, GetMonthsRange succeeds
with the contiguous inclusive ascending month list — its length is the
month count, its i-th element is the canonical string of the start index
plus i, and its first and last elements are the two bounds; an unparseable
bound yields the format error naming that bound, and parseable bounds out
of order yield the range error. -/
theorem c7_months_range_spec :
    (∀ (s e : String) (ys ms ye me : Nat), parseYearMonth s = some (ys, ms) →
      parseYearMonth e = some (ye, me) → monthIndex ys ms ≤ monthIndex ye me →
      ∃ l, GetMonthsRange s e = .ok l ∧
        l.length = monthIndex ye me - monthIndex ys ms + 1 ∧
        (∀ i : Nat, i < l.length →
          l[i]? = some (formatYearMonth (monthIndex ys ms + i))) ∧
        l[0]? = some s ∧ l[l.length - 1]? = some e) ∧
    (∀ s e, parseYearMonth s = none →
      GetMonthsRange s e = .error "invalid start month format") ∧
    (∀ (s e : String) (p : Nat × Nat), parseYearMonth s = some p →
      parseYearMonth e = none →
      GetMonthsRange s e = .error "invalid end month format") ∧
    (∀ (s e : String) (ys ms ye me : Nat), parseYearMonth s = some (ys, ms) →
      parseYearMonth e = some (ye, me) → monthIndex ye me < monthIndex ys ms →
      GetMonthsRange s e = .error "end month cannot be before start month") := by
  refine ⟨?_, ?_, ?_, ?_⟩
  · intro s e ys ms ye me hs he hle
    refine ⟨monthsFrom (monthIndex ys ms) (monthIndex ye me), ?_, monthsFrom_length hle,
      ?_, ?_, ?_⟩
    · unfold GetMonthsRange
      rw [hs, he]
      exact if_neg (not_lt.mpr hle)
    · intro i hi
      rw [monthsFrom_length hle] at hi
      exact monthsFrom_getElem? hle i (by omega)
    · have h0 := monthsFrom_getElem? hle 0 (by omega)
      rw [h0, Nat.add_zero, formatYearMonth_monthIndex hs]
    · rw [monthsFrom_length hle]
      have he1 : monthIndex ye me - monthIndex ys ms + 1 - 1 =
          monthIndex ye me - monthIndex ys ms := by omega
      rw [he1]
      have hlast := monthsFrom_getElem? hle (monthIndex ye me - monthIndex ys ms)
        (Nat.le_refl _)
      rw [hlast]
      have he2 : monthIndex ys ms + (monthIndex ye me - monthIndex ys ms) =
          monthIndex ye me := by omega
      rw [he2, formatYearMonth_monthIndex he]
  · intro s e hs
    unfold GetMonthsRange
    rw [hs]
  · intro s e p hs he
    unfold GetMonthsRange
    rw [hs, he]
  · intro s e ys ms ye me hs he hlt
    unfold GetMonthsRange
    rw [hs, he]
    exact if_pos hlt

/-- C7 witness: the range from 2023-11 to 2024-02 is the four canonical
months with the bounds at the ends. -/
theorem c7_months_range_spec_witness :
    ∃ l, GetMonthsRange "2023-11" "2024-02" = .ok l ∧
      l.length = monthIndex 2024 2 - monthIndex 2023 11 + 1 ∧
      (∀ i : Nat, i < l.length →
        l[i]? = some (formatYearMonth (monthIndex 2023 11 + i))) ∧
      l[0]? = some "2023-11" ∧ l[l.length - 1]? = some "2024-02" :=
  c7_months_range_spec.1 "2023-11" "2024-02" 2023 11 2024 2 (by decide) (by decide)
    (by decide)

/-! ### Generation loop lemmas -/

theorem genMonths_zero (tid : Int) (tcr : ℚ) (np : Int) (now : Nat) (txdb : DB)
    (cur : Nat) : genMonths tid tcr np now txdb cur 0 = txdb := rfl

theorem genMonths_succ (tid : Int) (tcr : ℚ) (np : Int) (now : Nat) (txdb : DB)
    (cur fuel : Nat) :
    genMonths tid tcr np now txdb cur (fuel + 1) =
      genMonths tid tcr np now (genStep tid tcr np now txdb cur) (cur + 1) fuel := rfl

theorem genMonths_tenants (tid : Int) (tcr : ℚ) (np : Int) (now : Nat) :
    ∀ (fuel cur : Nat) (txdb : DB),
      (genMonths tid tcr np now txdb cur fuel).tenants = txdb.tenants := by
  intro fuel
  induction fuel with
  | zero => intro cur txdb; rfl
  | succ n ih =>
    intro cur txdb
    rw [genMonths_succ, ih]
    unfold genStep
    split_ifs <;> rfl

theorem genMonths_shape (tid : Int) (tcr : ℚ) (np : Int) (now : Nat) :
    ∀ (fuel cur : Nat) (txdb : DB), ∃ newRows : List PaymentRecord,
      (genMonths tid tcr np now txdb cur fuel).records = txdb.records ++ newRows ∧
      ∀ r ∈ newRows, r.tenantId = tid ∧ r.targetColdRent = tcr ∧ r.persons = np ∧
        r.paidColdRent = 0 ∧ r.paidAncillary = 0 ∧ r.paidElectricity = 0 ∧
        r.extraPayments = 0 ∧ r.note = "" ∧ r.isLocked = false ∧
        (∃ i : Nat, i < fuel ∧ r.month = formatYearMonth (cur + i)) ∧
        findByTenantMonth txdb.records tid r.month = none := by
  intro fuel
  induction fuel with
  | zero =>
    intro cur txdb
    exact ⟨[], by simp [genMonths_zero], by simp⟩
  | succ n ih =>
    intro cur txdb
    obtain ⟨l, hl, hp⟩ := ih (cur + 1) (genStep tid tcr np now txdb cur)
    by_cases hex : (findByTenantMonth txdb.records tid (formatYearMonth cur)).isSome = true
    · have hstep : genStep tid tcr np now txdb cur = txdb := by
        unfold genStep
        rw [if_pos hex]
      refine ⟨l, ?_, ?_⟩
      · rw [genMonths_succ, hstep]
        rw [hstep] at hl
        exact hl
      · intro r hr
        obtain ⟨h1, h2, h3, h4, h5, h6, h7, h8, h9, ⟨i, hi, hm⟩, hfd⟩ := hp r hr
        rw [hstep] at hfd
        refine ⟨h1, h2, h3, h4, h5, h6, h7, h8, h9, ⟨i + 1, by omega, ?_⟩, hfd⟩
        rw [hm]
        congr 1
        omega
    · have hnone : findByTenantMonth txdb.records tid (formatYearMonth cur) = none := by
        cases hfm : findByTenantMonth txdb.records tid (formatYearMonth cur) with
        | none => rfl
        | some x => rw [hfm] at hex; simp at hex
      have hstep : genStep tid tcr np now txdb cur =
          { txdb with
            records := txdb.records ++ [genRow tid tcr np now txdb.nextRecordId cur],
            nextRecordId := txdb.nextRecordId + 1 } := by
        unfold genStep
        rw [if_neg hex]
      refine ⟨genRow tid tcr np now txdb.nextRecordId cur :: l, ?_, ?_⟩
      · rw [genMonths_succ, hstep]
        rw [hstep] at hl
        simp only at hl
        rw [hl, List.append_assoc]
        rfl
      · intro r hr
        rw [List.mem_cons] at hr
        rcases hr with rfl | hr
        · refine ⟨rfl, rfl, rfl, rfl, rfl, rfl, rfl, rfl, rfl, ⟨0, by omega, ?_⟩, hnone⟩
          show formatYearMonth cur = formatYearMonth (cur + 0)
          rw [Nat.add_zero]
        · obtain ⟨h1, h2, h3, h4, h5, h6, h7, h8, h9, ⟨i, hi, hm⟩, hfd⟩ := hp r hr
          rw [hstep] at hfd
          simp only at hfd
          have hfd2 : findByTenantMonth txdb.records tid r.month = none := by
            unfold findByTenantMonth at hfd ⊢
            rw [List.find?_eq_none] at hfd ⊢
            intro x hx
            exact hfd x (List.mem_append_left _ hx)
          refine ⟨h1, h2, h3, h4, h5, h6, h7, h8, h9, ⟨i + 1, by omega, ?_⟩, hfd2⟩
          rw [hm]
          congr 1
          omega

theorem genMonths_covers (tid : Int) (tcr : ℚ) (np : Int) (now : Nat) :
    ∀ (fuel cur : Nat) (txdb : DB) (i : Nat), i < fuel →
      ∃ r ∈ (genMonths tid tcr np now txdb cur fuel).records,
        r.tenantId = tid ∧ r.month = formatYearMonth (cur + i) := by
  intro fuel
  induction fuel with
  | zero => intro cur txdb i hi; omega
  | succ n ih =>
    intro cur txdb i hi
    rcases i with _ | j
    · have hmem : ∃ r ∈ (genStep tid tcr np now txdb cur).records,
          r.tenantId = tid ∧ r.month = formatYearMonth cur := by
        by_cases hex : (findByTenantMonth txdb.records tid (formatYearMonth cur)).isSome = true
        · obtain ⟨r0, hr0⟩ := Option.isSome_iff_exists.mp hex
          have hr0mem : r0 ∈ txdb.records := List.mem_of_find?_eq_some hr0
          have hr0p := List.find?_some hr0
          simp only [decide_eq_true_eq] at hr0p
          have hstep : genStep tid tcr np now txdb cur = txdb := by
            unfold genStep
            rw [if_pos hex]
          exact ⟨r0, by rw [hstep]; exact hr0mem, hr0p.1, hr0p.2⟩
        · refine ⟨genRow tid tcr np now txdb.nextRecordId cur, ?_, rfl, rfl⟩
          unfold genStep
          rw [if_neg hex]
          simp
      obtain ⟨r0, hr0mem, hr0t, hr0m⟩ := hmem
      obtain ⟨l, hl, -⟩ := genMonths_shape tid tcr np now n (cur + 1)
        (genStep tid tcr np now txdb cur)
      refine ⟨r0, ?_, hr0t, by rw [hr0m, Nat.add_zero]⟩
      rw [genMonths_succ, hl]
      exact List.mem_append_left _ hr0mem
    · obtain ⟨r0, hmem, ht, hm⟩ := ih (cur + 1) (genStep tid tcr np now txdb cur) j
        (by omega)
      refine ⟨r0, by rw [genMonths_succ]; exact hmem, ht, ?_⟩
      rw [hm]
      congr 1
      omega

theorem genMonths_fixed (tid : Int) (tcr : ℚ) (np : Int) (now : Nat) :
    ∀ (fuel cur : Nat) (txdb : DB),
      (∀ i : Nat, i < fuel →
        (findByTenantMonth txdb.records tid (formatYearMonth (cur + i))).isSome = true) →
      genMonths tid tcr np now txdb cur fuel = txdb := by
  intro fuel
  induction fuel with
  | zero => intro cur txdb _; rfl
  | succ n ih =>
    intro cur txdb h
    have h0 := h 0 (by omega)
    rw [Nat.add_zero] at h0
    have hstep : genStep tid tcr np now txdb cur = txdb := by
      unfold genStep
      rw [if_pos h0]
    rw [genMonths_succ, hstep]
    refine ih (cur + 1) txdb ?_
    intro i hi
    have := h (i + 1) (by omega)
    rwa [show cur + (i + 1) = cur + 1 + i by omega] at this

theorem mem_isSome_findByTenantMonth (rs : List PaymentRecord) (tid : Int) (m : String)
    (h : ∃ r ∈ rs, r.tenantId = tid ∧ r.month = m) :
    (findByTenantMonth rs tid m).isSome = true := by
  obtain ⟨r, hmem, h1, h2⟩ := h
  unfold findByTenantMonth
  cases hf : rs.find? (fun x => decide (x.tenantId = tid ∧ x.month = m)) with
  | some _ => rfl
  | none =>
    rw [List.find?_eq_none] at hf
    exact absurd (by simp [h1, h2]) (hf r hmem)

theorem generate_tenant_notfound (db : DB) (tid : Int) (nm now : Nat)
    (h : db.tenants.find? (fun x => decide (x.id = tid)) = none) :
    PaymentRecordRepository.GeneratePaymentRecordsForTenant db tid nm now =
      (db, .error "tenant not found") := by
  unfold PaymentRecordRepository.GeneratePaymentRecordsForTenant
  rw [h]

theorem generate_tenant_found (db : DB) (tid : Int) (nm now : Nat) (t : Tenant)
    (h : db.tenants.find? (fun x => decide (x.id = tid)) = some t) :
    PaymentRecordRepository.GeneratePaymentRecordsForTenant db tid nm now =
      generateForTenant db tid nm now t := by
  unfold PaymentRecordRepository.GeneratePaymentRecordsForTenant
  rw [h]

theorem generateForTenant_bad_movein (db : DB) (tid : Int) (nm now : Nat) (t : Tenant)
    (h : parseDate t.moveInDate = none) :
    generateForTenant db tid nm now t = (db, .error "invalid move-in date format") := by
  unfold generateForTenant
  rw [h]

theorem generateForTenant_bad_end (db : DB) (tid : Int) (nm now : Nat) (t : Tenant)
    (p : Nat × Nat × Nat) (e : String) (hp : parseDate t.moveInDate = some p)
    (he : genEndIndex t nm = .error e) :
    generateForTenant db tid nm now t = (db, .error e) := by
  unfold generateForTenant
  rw [hp, he]

theorem generateForTenant_ok (db : DB) (tid : Int) (nm now : Nat) (t : Tenant)
    (p : Nat × Nat × Nat) (k : Nat) (hp : parseDate t.moveInDate = some p)
    (he : genEndIndex t nm = .ok k) :
    generateForTenant db tid nm now t =
      (genMonths tid t.targetColdRent t.numberOfPersons now db (monthIndex p.1 p.2.1)
        (k + 1 - monthIndex p.1 p.2.1), .ok ()) := by
  unfold generateForTenant
  rw [hp, he]

/-! ### C5: record generation -/

/-- C5: generation for a stored tenant with a parseable move-in date and a
resolvable end month (move-out month if stored, else the current month)
succeeds; rows are only appended, and each appended row belongs to the
tenant, snapshots the tenant current targetColdRent and numberOfPersons,
has zeroed paid amounts, empty note and unlocked flag, carries a month
inside the inclusive range, and had no prior (tenant, month) row; every
month of the range is covered afterwards; re-running generation right away
changes nothing and succeeds (idempotence); and a failed generation leaves
the state unchanged. -/
theorem c5_generation_spec (db : DB) (tid : Int) (nowMonthIdx now now2 : Nat)
    (t : Tenant) (din : Nat × Nat × Nat) (endIdx : Nat)
    (ht : db.tenants.find? (fun x => decide (x.id = tid)) = some t)
    (hdin : parseDate t.moveInDate = some din)
    (hend : genEndIndex t nowMonthIdx = .ok endIdx) :
    (PaymentRecordRepository.GeneratePaymentRecordsForTenant db tid nowMonthIdx now).2 =
      .ok () ∧
    (∃ newRows : List PaymentRecord,
      (PaymentRecordRepository.GeneratePaymentRecordsForTenant db tid nowMonthIdx
          now).1.records = db.records ++ newRows ∧
      ∀ r ∈ newRows, r.tenantId = tid ∧ r.targetColdRent = t.targetColdRent ∧
        r.persons = t.numberOfPersons ∧ r.paidColdRent = 0 ∧ r.paidAncillary = 0 ∧
        r.paidElectricity = 0 ∧ r.extraPayments = 0 ∧ r.note = "" ∧ r.isLocked = false ∧
        (∃ i : Nat, i < endIdx + 1 - monthIndex din.1 din.2.1 ∧
          r.month = formatYearMonth (monthIndex din.1 din.2.1 + i)) ∧
        findByTenantMonth db.records tid r.month = none) ∧
    (∀ i : Nat, i < endIdx + 1 - monthIndex din.1 din.2.1 →
      ∃ r ∈ (PaymentRecordRepository.GeneratePaymentRecordsForTenant db tid nowMonthIdx
          now).1.records,
        r.tenantId = tid ∧ r.month = formatYearMonth (monthIndex din.1 din.2.1 + i)) ∧
    (PaymentRecordRepository.GeneratePaymentRecordsForTenant
        (PaymentRecordRepository.GeneratePaymentRecordsForTenant db tid nowMonthIdx now).1
        tid nowMonthIdx now2 =
      ((PaymentRecordRepository.GeneratePaymentRecordsForTenant db tid nowMonthIdx now).1,
        .ok ())) ∧
    (∀ (db3 : DB) (tid3 : Int) (nm3 now3 : Nat) (e : String),
      (PaymentRecordRepository.GeneratePaymentRecordsForTenant db3 tid3 nm3 now3).2 =
        .error e →
      (PaymentRecordRepository.GeneratePaymentRecordsForTenant db3 tid3 nm3 now3).1 =
        db3) := by
  have hgen : PaymentRecordRepository.GeneratePaymentRecordsForTenant db tid nowMonthIdx
      now =
      (genMonths tid t.targetColdRent t.numberOfPersons now db (monthIndex din.1 din.2.1)
        (endIdx + 1 - monthIndex din.1 din.2.1), .ok ()) := by
    rw [generate_tenant_found db tid nowMonthIdx now t ht,
      generateForTenant_ok db tid nowMonthIdx now t din endIdx hdin hend]
  refine ⟨by rw [hgen], ?_, ?_, ?_, ?_⟩
  · obtain ⟨l, hl, hp⟩ := genMonths_shape tid t.targetColdRent t.numberOfPersons now
      (endIdx + 1 - monthIndex din.1 din.2.1) (monthIndex din.1 din.2.1) db
    exact ⟨l, by rw [hgen]; exact hl, hp⟩
  · intro i hi
    have := genMonths_covers tid t.targetColdRent t.numberOfPersons now
      (endIdx + 1 - monthIndex din.1 din.2.1) (monthIndex din.1 din.2.1) db i hi
    rw [hgen]
    exact this
  · have ht2 : (PaymentRecordRepository.GeneratePaymentRecordsForTenant db tid nowMonthIdx
        now).1.tenants.find? (fun x => decide (x.id = tid)) = some t := by
      rw [hgen]
      rw [genMonths_tenants]
      exact ht
    have hcov : ∀ i : Nat, i < endIdx + 1 - monthIndex din.1 din.2.1 →
        (findByTenantMonth
          (PaymentRecordRepository.GeneratePaymentRecordsForTenant db tid nowMonthIdx
            now).1.records tid
          (formatYearMonth (monthIndex din.1 din.2.1 + i))).isSome = true := by
      intro i hi
      apply mem_isSome_findByTenantMonth
      have := genMonths_covers tid t.targetColdRent t.numberOfPersons now
        (endIdx + 1 - monthIndex din.1 din.2.1) (monthIndex din.1 din.2.1) db i hi
      rw [hgen]
      exact this
    have hfix := genMonths_fixed tid t.targetColdRent t.numberOfPersons now2
      (endIdx + 1 - monthIndex din.1 din.2.1) (monthIndex din.1 din.2.1)
      (PaymentRecordRepository.GeneratePaymentRecordsForTenant db tid nowMonthIdx now).1
      hcov
    rw [generate_tenant_found _ tid nowMonthIdx now2 t ht2,
      generateForTenant_ok _ tid nowMonthIdx now2 t din endIdx hdin hend, hfix]
  · intro db3 tid3 nm3 now3 e h
    cases hft : db3.tenants.find? (fun x => decide (x.id = tid3)) with
    | none => rw [generate_tenant_notfound db3 tid3 nm3 now3 hft]
    | some t3 =>
      rw [generate_tenant_found db3 tid3 nm3 now3 t3 hft] at h ⊢
      cases hpd : parseDate t3.moveInDate with
      | none => rw [generateForTenant_bad_movein db3 tid3 nm3 now3 t3 hpd]
      | some p3 =>
        cases hge : genEndIndex t3 nm3 with
        | error e2 => rw [generateForTenant_bad_end db3 tid3 nm3 now3 t3 p3 e2 hpd hge]
        | ok k =>
          rw [generateForTenant_ok db3 tid3 nm3 now3 t3 p3 k hpd hge] at h
          simp at h

/-- C5 witness: the example tenant moved in 2023-01-15 with no move-out;
with the current month 2023-04 the generation starting from the stored
January record succeeds, covers January through April, only appends valid
snapshot rows, and an immediate re-run is a no-op. -/
theorem c5_generation_spec_witness :
    (PaymentRecordRepository.GeneratePaymentRecordsForTenant exDB 1 (monthIndex 2023 4)
        7).2 = .ok () ∧
    (∃ newRows : List PaymentRecord,
      (PaymentRecordRepository.GeneratePaymentRecordsForTenant exDB 1 (monthIndex 2023 4)
          7).1.records = exDB.records ++ newRows ∧
      ∀ r ∈ newRows, r.tenantId = 1 ∧ r.targetColdRent = exTenant.targetColdRent ∧
        r.persons = exTenant.numberOfPersons ∧ r.paidColdRent = 0 ∧ r.paidAncillary = 0 ∧
        r.paidElectricity = 0 ∧ r.extraPayments = 0 ∧ r.note = "" ∧ r.isLocked = false ∧
        (∃ i : Nat, i < monthIndex 2023 4 + 1 - monthIndex (2023, 1, 15).1 (2023, 1, 15).2.1 ∧
          r.month = formatYearMonth (monthIndex (2023, 1, 15).1 (2023, 1, 15).2.1 + i)) ∧
        findByTenantMonth exDB.records 1 r.month = none) ∧
    (∀ i : Nat, i < monthIndex 2023 4 + 1 - monthIndex (2023, 1, 15).1 (2023, 1, 15).2.1 →
      ∃ r ∈ (PaymentRecordRepository.GeneratePaymentRecordsForTenant exDB 1
          (monthIndex 2023 4) 7).1.records,
        r.tenantId = 1 ∧
          r.month = formatYearMonth (monthIndex (2023, 1, 15).1 (2023, 1, 15).2.1 + i)) ∧
    (PaymentRecordRepository.GeneratePaymentRecordsForTenant
        (PaymentRecordRepository.GeneratePaymentRecordsForTenant exDB 1 (monthIndex 2023 4)
          7).1 1 (monthIndex 2023 4) 9 =
      ((PaymentRecordRepository.GeneratePaymentRecordsForTenant exDB 1 (monthIndex 2023 4)
          7).1, .ok ())) ∧
    (∀ (db3 : DB) (tid3 : Int) (nm3 now3 : Nat) (e : String),
      (PaymentRecordRepository.GeneratePaymentRecordsForTenant db3 tid3 nm3 now3).2 =
        .error e →
      (PaymentRecordRepository.GeneratePaymentRecordsForTenant db3 tid3 nm3 now3).1 =
        db3) :=
  c5_generation_spec exDB 1 (monthIndex 2023 4) 7 9 exTenant (2023, 1, 15)
    (monthIndex 2023 4) (by decide) (by decide) rfl

end PropertyManager
